import Mathlib

set_option maxHeartbeats 1000000

/-!
Shallow embedding of the VentureGO interview session manager
(`src/services/interview.py`) and its lexical/feedback analysis helpers
(`src/services/analysis.py`).  External collaborators (generative text,
transcription, document extraction) are modelled as explicit outcome
parameters of type `Except Unit _`: each operation receives the result the
collaborator call would have produced.  Timestamps are rationals standing in
for `time.time()` floats, and division on scores is exact rational division
mirroring the Python float expressions symbolically.  The filesystem side of
persistence (`metadata.json` files) is modelled by the `disk` component of
`InterviewService`.
-/

namespace VentureGO

/-- Python truthiness test used by the source on optional strings:
`None` and the empty string are falsy (`if not text: ...`). -/
def pyFalsy : Option String → Bool
  | none => true
  | some s => s == ""

/-- Accumulator form of the whitespace split: `acc` holds the characters of
the token currently being read, in reverse. -/
def pySplitAux : List Char → List Char → List (List Char)
  | [], acc => if acc.isEmpty then [] else [acc.reverse]
  | c :: cs, acc =>
    if c.isWhitespace then
      if acc.isEmpty then pySplitAux cs [] else acc.reverse :: pySplitAux cs []
    else pySplitAux cs (c :: acc)

/-- Whitespace split of a character list, discarding empty tokens.  This is
Python `str.split()` with no separator argument, used by `analyze_sentiment`. -/
def pySplitChars (l : List Char) : List (List Char) := pySplitAux l []

/-- Python `str.strip()`: drop leading and trailing whitespace characters. -/
def pyStripChars (l : List Char) : List Char :=
  ((l.dropWhile Char.isWhitespace).reverse.dropWhile Char.isWhitespace).reverse

/-- Python `str.split('\n')`: split at every newline, keeping empty pieces. -/
def splitLines : List Char → List (List Char)
  | [] => [[]]
  | c :: cs =>
    if c = '\n' then [] :: splitLines cs
    else
      match splitLines cs with
      | [] => [[c]]
      | t :: ts => (c :: t) :: ts

/-- Tokenisation `text.split()` from `analyze_sentiment` (magnitude denominator). -/
def pyTokens (text : String) : List String :=
  (pySplitChars text.toList).map (fun cs => String.mk cs)

/-- Tokenisation of the lower-cased text, `text.lower().split()`, used for the
positive/negative word counts in `analyze_sentiment`. -/
def pyTokensLower (text : String) : List String :=
  (pySplitChars (text.toList.map Char.toLower)).map (fun cs => String.mk cs)

/-- Fixed negative word list of `analyze_sentiment` (src/services/analysis.py). -/
def negative_words : List String :=
  ["no", "not", "never", "disagree", "bad", "difficult",
   "problem", "issue", "challenging", "worried", "concerned",
   "unsure", "unclear", "unfortunately", "fail"]

/-- Fixed positive word list of `analyze_sentiment` (src/services/analysis.py). -/
def positive_words : List String :=
  ["yes", "agree", "good", "great", "excellent", "success",
   "opportunity", "excited", "confident", "proven", "growth",
   "improvement", "innovative", "solution", "profit"]

/-- Sentiment result dictionary of `analyze_sentiment`. -/
structure Sentiment where
  score : ℚ
  magnitude : ℚ
  deriving DecidableEq, Repr

/-- Count of lower-cased tokens of `text` found in the negative word list
(`negative_count` in `analyze_sentiment`). -/
def negativeCount (text : String) : Nat :=
  (pyTokensLower text).countP (fun w => decide (w ∈ negative_words))

/-- Count of lower-cased tokens of `text` found in the positive word list
(`positive_count` in `analyze_sentiment`). -/
def positiveCount (text : String) : Nat :=
  (pyTokensLower text).countP (fun w => decide (w ∈ positive_words))

/-- Lexical sentiment scorer `analyze_sentiment` from src/services/analysis.py:
counts tokens of the lower-cased whitespace split against the two fixed word
lists; returns `{0, 0}` when no token matches, otherwise
`score = (pos - neg) / (pos + neg)` and `magnitude = (pos + neg) / tokenCount`
where `tokenCount` is the length of the (non-lowered) whitespace split. -/
def analyze_sentiment (text : String) : Sentiment :=
  let negative_count := negativeCount text
  let positive_count := positiveCount text
  let total := negative_count + positive_count
  if total = 0 then ⟨0, 0⟩
  else ⟨((positive_count : ℚ) - (negative_count : ℚ)) / (total : ℚ),
        (total : ℚ) / ((pyTokens text).length : ℚ)⟩

/-- Outcome of one generative-text or transcription collaborator call: either
the returned text, or an exception raised by the call. -/
abbrev GenResult := Except Unit String

/-- Fixed placeholder substituted by `analyze_single_response` when the
per-question collaborator call raises. -/
def analysisErrorText : String := "Analysis error: Could not process this response."

/-- Fixed summary substituted by `analyze_responses` when the summary
collaborator call raises. -/
def summaryErrorText : String := "Could not generate interview summary."

/-- Modelled after `analyze_single_response` in src/services/analysis.py: the
question/answer arguments feed only the collaborator prompt; the result is the
collaborator reply, or the fixed placeholder when the call raises. -/
def analyze_single_response (question actual expected : String) (call : GenResult) : String :=
  match call with
  | .ok t => t
  | .error _ => analysisErrorText

/-- Feedback dictionary returned by `analyze_responses`. -/
structure FeedbackResult where
  detailed_feedback : List (String × String)
  summary : String
  score : Option ℚ
  deriving DecidableEq, Repr

/-- Aggregate feedback routine `analyze_responses` from src/services/analysis.py.
`perCall i` is the outcome of the `i`-th per-question collaborator call (the
`asyncio.gather` preserves the index order), `summaryCall` the outcome of the
single summary call.  The numeric-score pattern scan over the summary text is
abstracted as the parameter `scoreScan`; no claim constrains it. -/
def analyze_responses (responses expected questions : List String)
    (perCall : Nat → GenResult) (summaryCall : GenResult)
    (scoreScan : String → Option ℚ) : FeedbackResult :=
  let triples := questions.zip (responses.zip expected)
  let individual_feedback :=
    triples.enum.map (fun p => analyze_single_response p.2.1 p.2.2.1 p.2.2.2 (perCall p.1))
  let detailed_feedback :=
    individual_feedback.enum.map (fun p => ("question_" ++ toString (p.1 + 1), p.2))
  match summaryCall with
  | .ok t =>
    { detailed_feedback := detailed_feedback, summary := t, score := scoreScan t }
  | .error _ =>
    { detailed_feedback := detailed_feedback, summary := summaryErrorText, score := none }

/-- Fixed fallback questions of `InterviewService._generate_cv_questions`. -/
def fallbackCvQuestions : List String :=
  ["Based on your CV, what relevant experience would help you succeed in this venture?",
   "How do your past achievements prepare you for the challenges of this startup?"]

/-- Outcome of the CV-question collaborator call: an exception (`error`), or a
reply object that either carries a text attribute (`ok (some t)`) or lacks one
(`ok none`, the failed `hasattr(response, 'text')` check). -/
abbrev CvGenResult := Except Unit (Option String)

/-- CV question generator `InterviewService._generate_cv_questions`: on a reply
with a text attribute, splits on line breaks, strips each line, drops blank
lines and keeps at most the first two; on a raised exception or a reply with no
text attribute, falls through to the fixed fallback pair. -/
def generate_cv_questions (call : CvGenResult) : List String :=
  match call with
  | .ok (some t) =>
    (((splitLines (pyStripChars t.toList)).map
        (fun cs => String.mk (pyStripChars cs))).filter (fun q => q != "")).take 2
  | .ok none => fallbackCvQuestions
  | .error _ => fallbackCvQuestions

/-- Session lifecycle states. -/
inductive Status where
  | created
  | ready
  | in_progress
  | completed
  | analyzed
  deriving DecidableEq, Repr

/-- Position of a status in the forward ordering
`created → ready → in_progress → completed → analyzed`. -/
def Status.rank : Status → Nat
  | .created => 0
  | .ready => 1
  | .in_progress => 2
  | .completed => 3
  | .analyzed => 4

/-- Entry of the per-session question list (`session["questions"]`). -/
structure QuestionRec where
  text : String
  type : String
  expected_response : String
  deriving DecidableEq, Repr

/-- Entry of the per-session response list (`session["responses"]`). -/
structure ResponseRec where
  text : String
  audio_path : Option String
  sentiment : Sentiment
  timestamp : ℚ
  deriving DecidableEq, Repr

/-- One session dictionary of `InterviewService.sessions`.  The `session_dir`
path is derivable from the session id and carries no state, so it is omitted. -/
structure Session where
  created_at : ℚ
  status : Status
  questions : List QuestionRec
  responses : List ResponseRec
  current_index : Nat
  cv_path : Option String
  feedback : Option FeedbackResult := none
  deriving DecidableEq, Repr

/-- One standard question/expected-answer pair (`self.standard_questions`). -/
structure StdQuestion where
  text : String
  expected_response : String
  deriving DecidableEq, Repr

/-- Built-in standard questions used when the CSV cannot be loaded
(`InterviewService.load_questions` fallback branch). -/
def fallbackStandardQuestions : List StdQuestion :=
  [⟨"Tell me about your startup.", "Clear explanation of the startup concept and vision."⟩,
   ⟨"What problem are you solving?", "Specific problem statement with market impact."⟩,
   ⟨"Who are your target customers?", "Detailed customer segmentation with clear needs."⟩]

/-- Serialised copy of a session written by `_save_session_metadata`. -/
structure SessionMetadata where
  session_id : String
  created_at : ℚ
  status : Status
  current_index : Nat
  cv_path : Option String
  questions : List (String × String)
  responses : List (Nat × String)
  deriving DecidableEq, Repr

/-- State of an `InterviewService` instance: the in-memory session map (as an
association list keyed by session id), the loaded standard questions, and the
durable metadata copies on disk. -/
structure InterviewService where
  sessions : List (String × Session)
  standard_questions : List StdQuestion
  disk : List (String × SessionMetadata)
  deriving DecidableEq, Repr

/-- Dictionary lookup `self.sessions[session_id]`. -/
def lookupSession (svc : InterviewService) (sid : String) : Option Session :=
  (svc.sessions.find? (fun p => decide (p.1 = sid))).map Prod.snd

/-- In-place mutation of the session dictionary entry for `sid`. -/
def writeBack (svc : InterviewService) (sid : String) (s : Session) : InterviewService :=
  { svc with sessions := svc.sessions.map (fun p => if p.1 = sid then (sid, s) else p) }

/-- Serialisable copy built by `_save_session_metadata`. -/
def metadataOf (sid : String) (s : Session) : SessionMetadata :=
  { session_id := sid
    created_at := s.created_at
    status := s.status
    current_index := s.current_index
    cv_path := s.cv_path
    questions := s.questions.map (fun q => (q.text, q.type))
    responses := s.responses.enum.map (fun p => (p.1, p.2.text)) }

/-- Persistence step `_save_session_metadata`: overwrites the durable copy of
the named session (a no-op when the session is unknown). -/
def save_session_metadata (svc : InterviewService) (sid : String) : InterviewService :=
  match lookupSession svc sid with
  | none => svc
  | some s =>
    { svc with disk := (sid, metadataOf sid s) :: svc.disk.filter (fun p => p.1 != sid) }

/-- Error taxonomy of the session manager (the `HTTPException`s raised in
src/services/interview.py, by call site). -/
inductive SvcError where
  | notFound
  | invalidState (current : Status)
  | questionMismatch
  | emptyResponse
  | audioProcessing
  | incomplete (answered total : Nat)
  | extractFailed
  deriving DecidableEq, Repr

/-- Fresh session dictionary created by `create_session`. -/
def freshSession (now : ℚ) : Session :=
  { created_at := now, status := .created, questions := [], responses := []
    current_index := 0, cv_path := none, feedback := none }

/-- Session manager operation `create_session`: inserts a fresh session in
state `created` under the (externally generated, fresh) id and persists it. -/
def create_session (svc : InterviewService) (sid : String) (now : ℚ) : InterviewService :=
  save_session_metadata { svc with sessions := (sid, freshSession now) :: svc.sessions } sid

/-- View returned by `get_session_status`. -/
structure SessionStatusView where
  session_id : String
  status : Status
  current_question_index : Nat
  total_questions : Nat
  created_at : ℚ
  cv_path : Option String
  deriving DecidableEq, Repr

/-- Session manager operation `get_session_status`: pure read. -/
def get_session_status (svc : InterviewService) (sid : String) :
    Except SvcError SessionStatusView :=
  match lookupSession svc sid with
  | none => .error .notFound
  | some s =>
    .ok { session_id := sid, status := s.status, current_question_index := s.current_index,
          total_questions := s.questions.length, created_at := s.created_at,
          cv_path := s.cv_path }

/-- Expected-response text attached to every CV-based question by `process_cv`. -/
def cvQuestionExpected : String := "Detailed response connecting experience to startup"

/-- Session fields written by `process_cv`: CV path set, question list replaced
by CV questions followed by the standard questions, status set to `ready`. -/
def cvUpdatedSession (std : List StdQuestion) (s : Session) (genCall : CvGenResult)
    (cv_path : String) : Session :=
  { s with
    cv_path := some cv_path
    questions :=
      (generate_cv_questions genCall).map
        (fun q => { text := q, type := "cv_based", expected_response := cvQuestionExpected })
      ++ std.map
        (fun q => { text := q.text, type := "standard",
                    expected_response := q.expected_response })
    status := .ready }

/-- Session manager operation `process_cv` (attachCV): saves the upload (out of
model), extracts text (outcome `cvText`, falsy on extraction failure), obtains
CV questions from the collaborator outcome `genCall`, then replaces the question
list with CV questions followed by the standard questions and sets the status
to `ready` unconditionally. -/
def process_cv (svc : InterviewService) (sid : String) (cvText : Option String)
    (genCall : CvGenResult) (filename : String) :
    Except SvcError (InterviewService × String) :=
  match lookupSession svc sid with
  | none => .error .notFound
  | some s =>
    let cv_path := sid ++ "/cv_" ++ filename
    if pyFalsy cvText then .error .extractFailed
    else
      let s' := cvUpdatedSession svc.standard_questions s genCall cv_path
      .ok (save_session_metadata (writeBack svc sid s') sid, cv_path)

/-- Question object returned to callers (pydantic `Question`). -/
structure QuestionOut where
  question_id : String
  text : String
  type : String
  expected_response : String
  deriving DecidableEq, Repr

/-- Placeholder question record (never observed: the access in
`get_next_question` is guarded by the index bound). -/
def defaultQuestionRec : QuestionRec := { text := "", type := "", expected_response := "" }

/-- Deterministic question identity derived from the session id and the
cursor: the id, an underscore, and the decimal index. -/
def expectedQuestionId (sid : String) (idx : Nat) : String := sid ++ "_" ++ toString idx

/-- Session manager operation `get_next_question`: fails with `InvalidState`
outside `ready`/`in_progress`, returns `none` on exhaustion, otherwise returns
the question at the cursor (with the identity `sid ++ "_" ++ index`) without
advancing the cursor, transitioning `ready → in_progress` on first call. -/
def get_next_question (svc : InterviewService) (sid : String) :
    Except SvcError (InterviewService × Option QuestionOut) :=
  match lookupSession svc sid with
  | none => .error .notFound
  | some s =>
    if s.status != .ready && s.status != .in_progress then .error (.invalidState s.status)
    else if s.questions.length ≤ s.current_index then .ok (svc, none)
    else
      let current_q := s.questions.getD s.current_index defaultQuestionRec
      let svc' :=
        if s.status = .ready
        then save_session_metadata (writeBack svc sid { s with status := .in_progress }) sid
        else svc
      .ok (svc', some { question_id := expectedQuestionId sid s.current_index,
                        text := current_q.text, type := current_q.type,
                        expected_response := current_q.expected_response })

/-- Response object returned to callers (pydantic `Response`). -/
structure ResponseOut where
  response_id : String
  question_id : String
  text : String
  audio_path : Option String
  sentiment_score : Option ℚ
  deriving DecidableEq, Repr

/-- Response record appended by `process_response`. -/
def submitRecord (t : String) (audio_path : Option String) (now : ℚ) : ResponseRec :=
  { text := t, audio_path := audio_path, sentiment := analyze_sentiment t, timestamp := now }

/-- Session fields written by a successful `process_response`: the record is
appended, the cursor advances by one, and the status flips to `completed` when
the cursor reaches the end of the question list. -/
def submitUpdatedSession (s : Session) (record : ResponseRec) : Session :=
  { s with
    responses := s.responses ++ [record]
    current_index := s.current_index + 1
    status := if s.questions.length ≤ s.current_index + 1 then .completed else s.status }

/-- Session manager operation `process_response` (submitResponse).  `audio`
records whether an audio file was attached; `transcribeCall` is the outcome the
transcription collaborator would produce, consulted only on the branch where
the source actually calls it.  The returned `Bool` is true exactly when that
transcription call was made. -/
def process_response (svc : InterviewService) (sid : String) (question_id : String)
    (audio : Bool) (transcribeCall : GenResult) (text : Option String) (now : ℚ) :
    Bool × Except SvcError (InterviewService × ResponseOut) :=
  match lookupSession svc sid with
  | none => (false, .error .notFound)
  | some s =>
    if s.status != .in_progress then (false, .error (.invalidState s.status))
    else if question_id != expectedQuestionId sid s.current_index then
      (false, .error .questionMismatch)
    else
      let audio_path :=
        if audio then some (sid ++ "/response_" ++ toString s.current_index ++ ".wav")
        else none
      let resolved : Bool × Except SvcError (Option String) :=
        if audio then
          if pyFalsy text then
            match transcribeCall with
            | .error _ => (true, .error .audioProcessing)
            | .ok tr => (true, .ok (some tr))
          else (false, .ok text)
        else (false, .ok text)
      match resolved with
      | (used, .error e) => (used, .error e)
      | (used, .ok text2) =>
        if pyFalsy text2 then (used, .error .emptyResponse)
        else
          let t := text2.getD ""
          let record := submitRecord t audio_path now
          let s' := submitUpdatedSession s record
          let svc' := save_session_metadata (writeBack svc sid s') sid
          (used, .ok (svc', { response_id := sid ++ "_response_" ++ toString s.responses.length,
                              question_id := question_id, text := t, audio_path := audio_path,
                              sentiment_score := some (analyze_sentiment t).score }))

/-- Feedback object returned to callers (pydantic `Feedback`). -/
structure FeedbackOut where
  summary : String
  detailed_feedback : List (String × String)
  overall_score : Option ℚ
  deriving DecidableEq, Repr

/-- Dictionary `get` with default, used on the detailed-feedback dictionary. -/
def lookupFeedback (l : List (String × String)) (k d : String) : String :=
  ((l.find? (fun p => decide (p.1 = k))).map Prod.snd).getD d

/-- Default string of the detailed-feedback dictionary `get` calls. -/
def noDetailedFeedbackText : String := "No detailed feedback available"

/-- Session fields written by a successful `generate_feedback`: the analysis
result is frozen into the session and the status set to `analyzed`. -/
def feedbackUpdatedSession (s : Session) (fr : FeedbackResult) : Session :=
  { s with feedback := some fr, status := .analyzed }

/-- Session manager operation `generate_feedback`: fails while
`len(responses) < len(questions)`, otherwise runs `analyze_responses`, freezes
the result into the session, sets the status to `analyzed` and returns the
assembled feedback object. -/
def generate_feedback (svc : InterviewService) (sid : String)
    (perCall : Nat → GenResult) (summaryCall : GenResult)
    (scoreScan : String → Option ℚ) :
    Except SvcError (InterviewService × FeedbackOut) :=
  match lookupSession svc sid with
  | none => .error .notFound
  | some s =>
    if s.responses.length < s.questions.length then
      .error (.incomplete s.responses.length s.questions.length)
    else
      let questions := s.questions.map (fun q => q.text)
      let expected_responses := s.questions.map (fun q => q.expected_response)
      let actual_responses := s.responses.map (fun r => r.text)
      let feedback_result :=
        analyze_responses actual_responses expected_responses questions perCall summaryCall
          scoreScan
      let s' := feedbackUpdatedSession s feedback_result
      let svc' := save_session_metadata (writeBack svc sid s') sid
      let detailed :=
        ((List.range questions.length).filter
            (fun i => decide (i < actual_responses.length))).map
          (fun i => ("question_" ++ toString (i + 1),
            lookupFeedback feedback_result.detailed_feedback
              ("question_" ++ toString (i + 1)) noDetailedFeedbackText))
      .ok (svc', { summary := feedback_result.summary, detailed_feedback := detailed,
                   overall_score := feedback_result.score })

/-- Interview result snapshot (pydantic `InterviewResult`). -/
structure InterviewResult where
  session_id : String
  questions : List QuestionOut
  responses : List ResponseOut
  feedback : Option FeedbackOut
  duration : ℚ
  deriving DecidableEq, Repr

/-- Session manager operation `get_interview_result`: pure read assembling the
questions/responses/feedback snapshot, with duration measured to the last
response timestamp (or `now` when no responses exist). -/
def get_interview_result (svc : InterviewService) (sid : String) (now : ℚ) :
    Except SvcError InterviewResult :=
  match lookupSession svc sid with
  | none => .error .notFound
  | some s =>
    let questions := s.questions.enum.map (fun p =>
      { question_id := sid ++ "_" ++ toString p.1, text := p.2.text, type := p.2.type,
        expected_response := p.2.expected_response : QuestionOut })
    let responses := s.responses.enum.map (fun p =>
      { response_id := sid ++ "_response_" ++ toString p.1,
        question_id := sid ++ "_" ++ toString p.1,
        text := p.2.text, audio_path := p.2.audio_path,
        sentiment_score := some p.2.sentiment.score : ResponseOut })
    let feedback := s.feedback.map (fun fr =>
      { summary := fr.summary
        detailed_feedback :=
          ((List.range s.questions.length).filter
              (fun i => decide (i < s.responses.length))).map
            (fun i => ("question_" ++ toString (i + 1),
              lookupFeedback fr.detailed_feedback ("question_" ++ toString (i + 1))
                noDetailedFeedbackText))
        overall_score := fr.score : FeedbackOut })
    let last_time :=
      match s.responses.getLast? with
      | some r => r.timestamp
      | none => now
    .ok { session_id := sid, questions := questions, responses := responses,
          feedback := feedback, duration := last_time - s.created_at }

/-- Session manager operation `cleanup_old_sessions` (expireSessions): removes
from active memory every session with `now - created_at > max_age_hours * 3600`
and returns how many were removed.  The durable `disk` copies are untouched. -/
def cleanup_old_sessions (svc : InterviewService) (now : ℚ) (max_age_hours : ℚ) :
    InterviewService × Nat :=
  let max_age_seconds := max_age_hours * 3600
  let sessions_to_remove :=
    svc.sessions.filter (fun p => decide (max_age_seconds < now - p.2.created_at))
  ({ svc with sessions :=
      svc.sessions.filter (fun p => !decide (max_age_seconds < now - p.2.created_at)) },
   sessions_to_remove.length)

/-- One boundary operation of the session manager, carrying the collaborator
outcomes the call would consume. -/
inductive Op where
  | createSession (sid : String) (now : ℚ)
  | attachCV (sid : String) (cvText : Option String) (genCall : CvGenResult) (filename : String)
  | getStatus (sid : String)
  | nextQuestion (sid : String)
  | submitResponse (sid question_id : String) (audio : Bool) (transcribeCall : GenResult)
      (text : Option String) (now : ℚ)
  | generateFeedback (sid : String) (perCall : Nat → GenResult) (summaryCall : GenResult)
      (scoreScan : String → Option ℚ)
  | getResult (sid : String) (now : ℚ)
  | expireSessions (max_age_hours : ℚ) (now : ℚ)

/-- Service state reached after one operation (a raised error leaves the
in-memory state unchanged: every operation of the source either raises before
mutating or mutates only on its success path). -/
def step (svc : InterviewService) : Op → InterviewService
  | .createSession sid now => create_session svc sid now
  | .attachCV sid cvText g fn =>
    match process_cv svc sid cvText g fn with
    | .ok (svc', _) => svc'
    | .error _ => svc
  | .getStatus _ => svc
  | .nextQuestion sid =>
    match get_next_question svc sid with
    | .ok (svc', _) => svc'
    | .error _ => svc
  | .submitResponse sid qid audio tr text now =>
    match (process_response svc sid qid audio tr text now).2 with
    | .ok (svc', _) => svc'
    | .error _ => svc
  | .generateFeedback sid per summ scan =>
    match generate_feedback svc sid per summ scan with
    | .ok (svc', _) => svc'
    | .error _ => svc
  | .getResult _ _ => svc
  | .expireSessions h now => (cleanup_old_sessions svc now h).1

/-- Key uniqueness of the session map (automatic for a Python dict). -/
def keysNodup (svc : InterviewService) : Prop := (svc.sessions.map Prod.fst).Nodup

/-- Freshness of the id handed to `createSession` (guaranteed by `uuid4`). -/
def okCreate (svc : InterviewService) : Op → Prop
  | .createSession sid _ => lookupSession svc sid = none
  | _ => True

/-- Side condition of the amended monotonicity claim: `createSession` receives
a fresh id, and `attachCV` is only invoked on sessions still in
`created`/`ready` (rank at most 1). -/
def okOp (svc : InterviewService) : Op → Prop
  | .createSession sid _ => lookupSession svc sid = none
  | .attachCV sid _ _ _ => ∀ s, lookupSession svc sid = some s → s.status.rank ≤ 1
  | _ => True

/-- Operation is an `attachCV`. -/
def isAttach : Op → Prop
  | .attachCV _ _ _ _ => True
  | _ => False

/-- Operation is an `attachCV` addressed to the given session id. -/
def isAttachTo : Op → String → Prop
  | .attachCV sid₀ _ _ _, sid => sid₀ = sid
  | _, _ => False

/-- Operation is a `submitResponse`. -/
def isSubmit : Op → Prop
  | .submitResponse _ _ _ _ _ _ => True
  | _ => False

/-- Operation is a `submitResponse` addressed to the given session id. -/
def isSubmitTo : Op → String → Prop
  | .submitResponse sid₀ _ _ _ _ _, sid => sid₀ = sid
  | _, _ => False

/-- Core per-session invariant: one response per advanced question, and an
`in_progress` session always has its cursor strictly inside the question list. -/
def sessionInv (s : Session) : Prop :=
  s.responses.length = s.current_index ∧
    (s.status = .in_progress → s.current_index < s.questions.length)

/-- The per-session invariant, over every session of the service. -/
def invAll (svc : InterviewService) : Prop := ∀ p ∈ svc.sessions, sessionInv p.2

/-- Bound `len(responses) ≤ len(questions)`, over every session of the service. -/
def boundAll (svc : InterviewService) : Prop :=
  ∀ p ∈ svc.sessions, p.2.responses.length ≤ p.2.questions.length

/-- Relation between the stored session at `sid` and its replacement written
back by one successful mutating operation. -/
def SessionStep (op : Op) (sid : String) (s₀ s' : Session) : Prop :=
  (isAttachTo op sid ∧ s'.responses = s₀.responses ∧ s'.current_index = s₀.current_index ∧
    s'.status = .ready)
  ∨ (s₀.status = .ready ∧ s₀.current_index < s₀.questions.length ∧
      s' = { s₀ with status := .in_progress })
  ∨ (isSubmitTo op sid ∧ s₀.status = .in_progress ∧ ∃ r : ResponseRec,
      s' = submitUpdatedSession s₀ r)
  ∨ (s₀.questions.length ≤ s₀.responses.length ∧ ∃ fr : FeedbackResult,
      s' = feedbackUpdatedSession s₀ fr)

/-- Service instance fresh after `__init__` with the built-in fallback
standard questions (the CSV-unavailable branch of `load_questions`). -/
def initService : InterviewService :=
  { sessions := [], standard_questions := fallbackStandardQuestions, disk := [] }

/-- Collaborator reply carrying two non-blank question lines. -/
def cvReplyTwo : CvGenResult :=
  .ok (some "What did you learn at Acme Corp?\nWhy move from research to a startup?")

/-- Trace prefix: one session created at time 0. -/
def traceCreate : InterviewService := create_session initService "s" 0

/-- Trace: CV attached, yielding 2 CV questions plus the 3 standard ones. -/
def traceAttached : InterviewService :=
  step traceCreate (.attachCV "s" (some "cv text") cvReplyTwo "cv.pdf")

/-- Trace: first question fetched, session now `in_progress`. -/
def traceStarted : InterviewService := step traceAttached (.nextQuestion "s")

/-- Trace: CV re-attached to the running session; the source resets the status
to `ready` with no state guard. -/
def traceReAttached : InterviewService :=
  step traceStarted (.attachCV "s" (some "cv text") cvReplyTwo "cv.pdf")

/-- Submission of the answer to question `i` of session `"s"`. -/
def submitOpAt (i : Nat) : Op :=
  .submitResponse "s" ("s_" ++ toString i) false (.error ()) (some "tell me more") 7

/-- Trace: all five questions answered; session `completed` with 5 responses. -/
def traceAnswered : InterviewService :=
  List.foldl step traceStarted ((List.range 5).map submitOpAt)

/-- Trace: CV re-attached after completion with a blank collaborator reply, so
the question list shrinks to the 3 standard questions while 5 responses stay. -/
def traceShrunk : InterviewService :=
  step traceAnswered (.attachCV "s" (some "cv text") (.ok (some "")) "cv.pdf")

/-- Default session used to name concrete lookup results in witnesses. -/
def defaultSession : Session := freshSession 0

/-- Default service/response pair used to name concrete results in witnesses. -/
def defaultOkSubmit : InterviewService × ResponseOut :=
  (initService,
   { response_id := "", question_id := "", text := "", audio_path := none,
     sentiment_score := none })

/-- Concrete submission of the first answer, used by witnesses. -/
def submitRunW : Bool × Except SvcError (InterviewService × ResponseOut) :=
  process_response traceStarted "s" "s_0" false (.error ()) (some "tell me more") 7

/-- Persisting metadata never touches the in-memory session map. -/
theorem sessions_save (svc : InterviewService) (sid : String) :
    (save_session_metadata svc sid).sessions = svc.sessions := by
  unfold save_session_metadata
  cases lookupSession svc sid <;> rfl

/-- Session lookup is unaffected by a metadata save. -/
theorem lookup_save (svc : InterviewService) (sid₀ sid : String) :
    lookupSession (save_session_metadata svc sid₀) sid = lookupSession svc sid := by
  unfold lookupSession
  rw [sessions_save]

/-- A `find?` over a mapped list whose predicate the mapping preserves. -/
theorem find?_map_of_pred_comm {α : Type} (f : α → α) (p : α → Bool)
    (hf : ∀ a, p (f a) = p a) :
    ∀ l : List α, (l.map f).find? p = (l.find? p).map f := by
  intro l
  induction l with
  | nil => rfl
  | cons a t ih =>
    cases h : p a
    · rw [List.map_cons, List.find?_cons_of_neg _ (by rw [hf]; simp [h]),
        List.find?_cons_of_neg _ (by simp [h]), ih]
    · rw [List.map_cons, List.find?_cons_of_pos _ (by rw [hf]; exact h),
        List.find?_cons_of_pos _ h, Option.map_some']

/-- The replacement function of `writeBack` preserves the lookup predicate. -/
theorem writeBack_pred_comm (sid₀ sid : String) (s' : Session) :
    ∀ a : String × Session,
      (decide ((if a.1 = sid₀ then ((sid₀, s') : String × Session) else a).1 = sid))
        = decide (a.1 = sid) := by
  intro a
  by_cases h : a.1 = sid₀ <;> simp [h]

/-- Lookup after a `writeBack`: the targeted entry (when present) now reads as
the written session; all other ids are untouched. -/
theorem lookup_writeBack (svc : InterviewService) (sid₀ sid : String) (s' : Session) :
    lookupSession (writeBack svc sid₀ s') sid
      = (lookupSession svc sid).map (fun s => if sid = sid₀ then s' else s) := by
  unfold lookupSession writeBack
  simp only
  rw [find?_map_of_pred_comm _ _ (writeBack_pred_comm sid₀ sid s')]
  cases hf : svc.sessions.find? (fun p => decide (p.1 = sid)) with
  | none => rfl
  | some p =>
    have hp : p.1 = sid := by simpa using List.find?_some hf
    by_cases h : sid = sid₀ <;> simp [Option.map_some', hp, h]

/-- Lookup of the written-back id. -/
theorem lookup_writeBack_self (svc : InterviewService) (sid : String) (s s' : Session)
    (h : lookupSession svc sid = some s) :
    lookupSession (writeBack svc sid s') sid = some s' := by
  rw [lookup_writeBack, h]; simp

/-- Lookup of any other id after a `writeBack`. -/
theorem lookup_writeBack_other (svc : InterviewService) (sid₀ sid : String) (s' : Session)
    (h : sid ≠ sid₀) :
    lookupSession (writeBack svc sid₀ s') sid = lookupSession svc sid := by
  rw [lookup_writeBack]
  cases lookupSession svc sid <;> simp [h]

/-- `writeBack` keeps the key sequence of the session map. -/
theorem keys_writeBack (svc : InterviewService) (sid : String) (s' : Session) :
    (writeBack svc sid s').sessions.map Prod.fst = svc.sessions.map Prod.fst := by
  unfold writeBack
  simp only [List.map_map]
  apply List.map_congr_left
  intro a _
  by_cases h : a.1 = sid <;> simp [h, Function.comp]

/-- An id is absent from the map exactly when no entry carries it. -/
theorem lookup_eq_none_iff (svc : InterviewService) (sid : String) :
    lookupSession svc sid = none ↔ ∀ p ∈ svc.sessions, p.1 ≠ sid := by
  unfold lookupSession
  rw [Option.map_eq_none', List.find?_eq_none]
  simp

/-- A `find?` by key over a filtered association list whose keys are unique:
the found entry survives exactly when the filter keeps it. -/
theorem find?_filter_of_key_nodup (t : List (String × Session)) (sid : String) (s : Session)
    (keep : String × Session → Bool) (hnd : (t.map Prod.fst).Nodup)
    (h : t.find? (fun x => decide (x.1 = sid)) = some (sid, s)) :
    (t.filter keep).find? (fun x => decide (x.1 = sid))
      = if keep (sid, s) then some (sid, s) else none := by
  induction t with
  | nil => simp at h
  | cons a t ih =>
    rw [List.map_cons, List.nodup_cons] at hnd
    by_cases ha : a.1 = sid
    · have hpa : a = (sid, s) := by
        rw [List.find?_cons_of_pos _ (by simp [ha])] at h
        exact Option.some_inj.mp h
      subst hpa
      cases hk : keep (sid, s)
      · rw [List.filter_cons_of_neg (by simp [hk])]
        simp only [Bool.false_eq_true, if_false]
        rw [List.find?_eq_none]
        intro x hx
        simp only [decide_eq_true_eq]
        intro hxs
        refine hnd.1 ?_
        have hxt : x.1 ∈ t.map Prod.fst :=
          List.mem_map_of_mem Prod.fst (List.mem_of_mem_filter hx)
        simpa [hxs] using hxt
      · rw [List.filter_cons_of_pos (by simp [hk])]
        rw [List.find?_cons_of_pos _ (by simp)]
        simp
    · rw [List.find?_cons_of_neg _ (by simp [ha])] at h
      cases hk : keep a
      · rw [List.filter_cons_of_neg (by simp [hk])]
        exact ih hnd.2 h
      · rw [List.filter_cons_of_pos (by simp [hk])]
        rw [List.find?_cons_of_neg _ (by simp [ha])]
        exact ih hnd.2 h

/-- Lookup in a filtered session map under key uniqueness: the entry survives
exactly when the filter keeps it. -/
theorem lookup_filter_of_nodup (svc : InterviewService) (sid : String) (s : Session)
    (keep : String × Session → Bool) (hnd : keysNodup svc)
    (h : lookupSession svc sid = some s) :
    lookupSession { svc with sessions := svc.sessions.filter keep } sid
      = if keep (sid, s) then some s else none := by
  obtain ⟨p, hp, hps⟩ := Option.map_eq_some'.mp h
  have hkey : p.1 = sid := by simpa using List.find?_some hp
  have hpair : p = (sid, s) := by cases p; simp_all
  subst hpair
  unfold lookupSession
  simp only
  rw [find?_filter_of_key_nodup svc.sessions sid s keep hnd hp]
  cases keep (sid, s) <;> simp

/-- Effect of one operation on the session map: unchanged, one fresh entry
prepended (`createSession`), the addressed entry rewritten according to
`SessionStep` (the mutating operations), or a filter (`expireSessions`). -/
theorem step_sessions_shape (svc : InterviewService) (op : Op) :
    (step svc op).sessions = svc.sessions
  ∨ (∃ sid now, op = .createSession sid now ∧
       (step svc op).sessions = (sid, freshSession now) :: svc.sessions)
  ∨ (∃ sid s₀ s', lookupSession svc sid = some s₀ ∧ SessionStep op sid s₀ s' ∧
       (step svc op).sessions = svc.sessions.map (fun p => if p.1 = sid then (sid, s') else p))
  ∨ (∃ keep : String × Session → Bool,
       (step svc op).sessions = svc.sessions.filter keep) := by
  cases op with
  | createSession sid now =>
    right; left
    exact ⟨sid, now, rfl, by simp [step, create_session, sessions_save]⟩
  | attachCV sid cvText g fn =>
    cases hl : lookupSession svc sid with
    | none => left; simp [step, process_cv, hl]
    | some s =>
      cases hcv : pyFalsy cvText with
      | true => left; simp [step, process_cv, hl, hcv]
      | false =>
        right; right; left
        refine ⟨sid, s, cvUpdatedSession svc.standard_questions s g (sid ++ "/cv_" ++ fn),
          hl, Or.inl ⟨rfl, rfl, rfl, rfl⟩, ?_⟩
        simp [step, process_cv, hl, hcv, sessions_save, writeBack]
  | getStatus sid => left; rfl
  | nextQuestion sid =>
    cases hl : lookupSession svc sid with
    | none => left; simp [step, get_next_question, hl]
    | some s =>
      by_cases hr : s.status = .ready
      · by_cases hidx : s.questions.length ≤ s.current_index
        · left; simp [step, get_next_question, hl, hr, hidx]
        · right; right; left
          refine ⟨sid, s, { s with status := .in_progress }, hl,
            Or.inr (Or.inl ⟨hr, by omega, rfl⟩), ?_⟩
          simp [step, get_next_question, hl, hr, hidx, sessions_save, writeBack]
      · by_cases hip : s.status = .in_progress
        · by_cases hidx : s.questions.length ≤ s.current_index
          · left; simp [step, get_next_question, hl, hr, hip, hidx]
          · left; simp [step, get_next_question, hl, hr, hip, hidx]
        · left; simp [step, get_next_question, hl, hr, hip]
  | submitResponse sid qid audio tr text now =>
    cases hl : lookupSession svc sid with
    | none => left; simp [step, process_response, hl]
    | some s =>
      by_cases hst : s.status = .in_progress
      · by_cases hq : qid = expectedQuestionId sid s.current_index
        · cases audio with
          | false =>
            cases hft : pyFalsy text with
            | true => left; simp [step, process_response, hl, hst, hq, hft]
            | false =>
              right; right; left
              refine ⟨sid, s,
                submitUpdatedSession s (submitRecord (text.getD "") none now), hl,
                Or.inr (Or.inr (Or.inl ⟨rfl, hst, _, rfl⟩)), ?_⟩
              simp [step, process_response, hl, hst, hq, hft, sessions_save, writeBack]
          | true =>
            cases hft : pyFalsy text with
            | false =>
              right; right; left
              refine ⟨sid, s,
                submitUpdatedSession s
                  (submitRecord (text.getD "")
                    (some (sid ++ "/response_" ++ toString s.current_index ++ ".wav")) now),
                hl, Or.inr (Or.inr (Or.inl ⟨rfl, hst, _, rfl⟩)), ?_⟩
              simp [step, process_response, hl, hst, hq, hft, sessions_save, writeBack]
            | true =>
              cases tr with
              | error e => left; simp [step, process_response, hl, hst, hq, hft]
              | ok tr2 =>
                cases hft2 : pyFalsy (some tr2) with
                | true => left; simp [step, process_response, hl, hst, hq, hft, hft2]
                | false =>
                  right; right; left
                  refine ⟨sid, s,
                    submitUpdatedSession s
                      (submitRecord ((some tr2).getD "")
                        (some (sid ++ "/response_" ++ toString s.current_index ++ ".wav")) now),
                    hl, Or.inr (Or.inr (Or.inl ⟨rfl, hst, _, rfl⟩)), ?_⟩
                  simp [step, process_response, hl, hst, hq, hft, hft2, sessions_save,
                    writeBack]
        · left; simp [step, process_response, hl, hst, hq]
      · left; simp [step, process_response, hl, hst]
  | generateFeedback sid per summ scan =>
    cases hl : lookupSession svc sid with
    | none => left; simp [step, generate_feedback, hl]
    | some s =>
      by_cases hinc : s.responses.length < s.questions.length
      · left; simp [step, generate_feedback, hl, hinc]
      · right; right; left
        refine ⟨sid, s,
          feedbackUpdatedSession s
            (analyze_responses (s.responses.map (fun r => r.text))
              (s.questions.map (fun q => q.expected_response))
              (s.questions.map (fun q => q.text)) per summ scan),
          hl, Or.inr (Or.inr (Or.inr ⟨by omega, _, rfl⟩)), ?_⟩
        simp [step, generate_feedback, hl, hinc, sessions_save, writeBack]
  | getResult sid now => left; rfl
  | expireSessions h now =>
    right; right; right
    exact ⟨fun p => !decide (h * 3600 < now - p.2.created_at), rfl⟩

/-- A successful lookup names the value of some entry of the session map. -/
theorem lookup_mem (svc : InterviewService) (sid : String) (s : Session)
    (h : lookupSession svc sid = some s) : ∃ p ∈ svc.sessions, p.2 = s := by
  obtain ⟨p, hp, hps⟩ := Option.map_eq_some'.mp h
  exact ⟨p, List.mem_of_find?_eq_some hp, hps⟩

/-- An `attachCV` addressed anywhere is an `attachCV`. -/
theorem isAttach_of_isAttachTo (op : Op) (sid : String) (h : isAttachTo op sid) :
    isAttach op := by
  cases op <;> simp_all [isAttachTo, isAttach]

/-- Lookup after one operation under key uniqueness and id freshness: the
session either survives unchanged or is rewritten according to `SessionStep`. -/
theorem step_lookup_cases (svc : InterviewService) (op : Op) (sid : String) (s s' : Session)
    (hnd : keysNodup svc) (hc : okCreate svc op)
    (h : lookupSession svc sid = some s)
    (h' : lookupSession (step svc op) sid = some s') :
    s' = s ∨ SessionStep op sid s s' := by
  rcases step_sessions_shape svc op with hsh | ⟨sid₀, now, hop, hsh⟩ |
    ⟨sid₀, s₀, s₁, hl₀, hstep, hsh⟩ | ⟨keep, hsh⟩
  · left
    have heq : lookupSession (step svc op) sid = lookupSession svc sid := by
      unfold lookupSession; rw [hsh]
    rw [heq, h] at h'
    exact (Option.some_inj.mp h').symm
  · subst hop
    have hfresh : lookupSession svc sid₀ = none := hc
    by_cases hss : sid = sid₀
    · rw [hss, hfresh] at h; exact absurd h (by simp)
    · left
      have heq : lookupSession (step svc (Op.createSession sid₀ now)) sid
          = lookupSession svc sid := by
        unfold lookupSession
        rw [hsh, List.find?_cons_of_neg _ (by simp [Ne.symm hss])]
      rw [heq, h] at h'
      exact (Option.some_inj.mp h').symm
  · have heq : lookupSession (step svc op) sid = lookupSession (writeBack svc sid₀ s₁) sid := by
      unfold lookupSession writeBack; rw [hsh]
    by_cases hss : sid = sid₀
    · subst hss
      have hs : s₀ = s := by rw [hl₀] at h; exact Option.some_inj.mp h
      subst hs
      rw [heq, lookup_writeBack_self svc sid s₀ s₁ hl₀] at h'
      right
      rw [← Option.some_inj.mp h']
      exact hstep
    · left
      rw [heq, lookup_writeBack_other svc sid₀ sid s₁ hss, h] at h'
      exact (Option.some_inj.mp h').symm
  · left
    have heq : lookupSession (step svc op) sid
        = lookupSession { svc with sessions := svc.sessions.filter keep } sid := by
      unfold lookupSession; rw [hsh]
    rw [heq, lookup_filter_of_nodup svc sid s keep hnd h] at h'
    cases hk : keep (sid, s)
    · rw [hk] at h'; exact absurd h' (by simp)
    · rw [hk] at h'; simp at h'; exact h'.symm

/-- Key uniqueness of the session map is preserved by every operation (given a
fresh id for `createSession`). -/
theorem keysNodup_step (svc : InterviewService) (op : Op)
    (hnd : keysNodup svc) (hc : okCreate svc op) : keysNodup (step svc op) := by
  rcases step_sessions_shape svc op with hsh | ⟨sid₀, now, hop, hsh⟩ |
    ⟨sid₀, s₀, s₁, hl₀, hstep, hsh⟩ | ⟨keep, hsh⟩
  · unfold keysNodup at *; rw [hsh]; exact hnd
  · subst hop
    unfold keysNodup at *
    rw [hsh, List.map_cons, List.nodup_cons]
    refine ⟨?_, hnd⟩
    have hfresh := (lookup_eq_none_iff svc sid₀).mp hc
    intro hmem
    obtain ⟨p, hp, hps⟩ := List.mem_map.mp hmem
    exact hfresh p hp hps
  · unfold keysNodup at *
    have hkeys : (step svc op).sessions.map Prod.fst = svc.sessions.map Prod.fst := by
      rw [hsh, List.map_map]
      apply List.map_congr_left
      intro a _
      by_cases h : a.1 = sid₀ <;> simp [h]
    rw [hkeys]; exact hnd
  · unfold keysNodup at *
    rw [hsh]
    exact hnd.sublist (List.Sublist.map Prod.fst (List.filter_sublist _))

/-- A session written back by any operation satisfies the per-session
invariant, provided the session it replaces did. -/
theorem sessionInv_of_sessionStep (op : Op) (sid : String) (s₀ s₁ : Session)
    (hinv₀ : sessionInv s₀) (hstep : SessionStep op sid s₀ s₁) : sessionInv s₁ := by
  rcases hstep with ⟨_, hresp, hidx, hstat⟩ | ⟨hr, hlt, hs⟩ | ⟨_, hip, r, hs⟩ | ⟨hge, fr, hs⟩
  · refine ⟨by rw [hresp, hidx]; exact hinv₀.1, ?_⟩
    intro habs; rw [hstat] at habs; exact absurd habs (by simp)
  · subst hs
    exact ⟨hinv₀.1, fun _ => hlt⟩
  · subst hs
    constructor
    · show (s₀.responses ++ [r]).length = s₀.current_index + 1
      simp [hinv₀.1]
    · intro habs
      show s₀.current_index + 1 < s₀.questions.length
      by_cases hc2 : s₀.questions.length ≤ s₀.current_index + 1
      · rw [show (submitUpdatedSession s₀ r).status
            = (if s₀.questions.length ≤ s₀.current_index + 1 then Status.completed
               else s₀.status) from rfl, if_pos hc2] at habs
        exact absurd habs (by simp)
      · omega
  · subst hs
    refine ⟨hinv₀.1, ?_⟩
    intro habs
    exact absurd habs (by simp [feedbackUpdatedSession])

/-- The per-session invariant holds for every session after every operation. -/
theorem invAll_step (svc : InterviewService) (op : Op) (hinv : invAll svc) :
    invAll (step svc op) := by
  rcases step_sessions_shape svc op with hsh | ⟨sid₀, now, hop, hsh⟩ |
    ⟨sid₀, s₀, s₁, hl₀, hstep, hsh⟩ | ⟨keep, hsh⟩
  · intro p hp; rw [hsh] at hp; exact hinv p hp
  · intro p hp
    rw [hsh] at hp
    rcases List.mem_cons.mp hp with hfr | hold
    · subst hfr
      exact ⟨rfl, by intro habs; exact absurd habs (by simp [freshSession])⟩
    · exact hinv p hold
  · intro p hp
    rw [hsh] at hp
    obtain ⟨q, hq, hqp⟩ := List.mem_map.mp hp
    obtain ⟨q₀, hq₀, hq₀s⟩ := lookup_mem svc sid₀ s₀ hl₀
    have hinv₀ : sessionInv s₀ := hq₀s ▸ hinv q₀ hq₀
    by_cases hkey : q.1 = sid₀
    · rw [if_pos hkey] at hqp
      subst hqp
      exact sessionInv_of_sessionStep op sid₀ s₀ s₁ hinv₀ hstep
    · rw [if_neg hkey] at hqp
      subst hqp
      exact hinv q hq
  · intro p hp
    rw [hsh] at hp
    exact hinv p (List.mem_of_mem_filter hp)

/-- The response/question bound survives any operation other than `attachCV`,
given the per-session invariant. -/
theorem boundAll_step_of_not_attach (svc : InterviewService) (op : Op)
    (hna : ¬ isAttach op) (hinv : invAll svc) (hb : boundAll svc) :
    boundAll (step svc op) := by
  rcases step_sessions_shape svc op with hsh | ⟨sid₀, now, hop, hsh⟩ |
    ⟨sid₀, s₀, s₁, hl₀, hstep, hsh⟩ | ⟨keep, hsh⟩
  · intro p hp; rw [hsh] at hp; exact hb p hp
  · intro p hp
    rw [hsh] at hp
    rcases List.mem_cons.mp hp with hfr | hold
    · subst hfr; exact Nat.le_refl _
    · exact hb p hold
  · intro p hp
    rw [hsh] at hp
    obtain ⟨q, hq, hqp⟩ := List.mem_map.mp hp
    obtain ⟨q₀, hq₀, hq₀s⟩ := lookup_mem svc sid₀ s₀ hl₀
    have hinv₀ : sessionInv s₀ := hq₀s ▸ hinv q₀ hq₀
    have hb₀ : s₀.responses.length ≤ s₀.questions.length := hq₀s ▸ hb q₀ hq₀
    by_cases hkey : q.1 = sid₀
    · rw [if_pos hkey] at hqp
      subst hqp
      show s₁.responses.length ≤ s₁.questions.length
      rcases hstep with ⟨hat, _, _, _⟩ | ⟨hr, hlt, hs⟩ | ⟨_, hip, r, hs⟩ | ⟨hge, fr, hs⟩
      · exact absurd (isAttach_of_isAttachTo op sid₀ hat) hna
      · subst hs; exact hb₀
      · subst hs
        show (s₀.responses ++ [r]).length ≤ s₀.questions.length
        have hlt : s₀.current_index < s₀.questions.length := hinv₀.2 hip
        have he : s₀.responses.length = s₀.current_index := hinv₀.1
        simp only [List.length_append, List.length_cons, List.length_nil]
        omega
      · subst hs; exact hb₀
    · rw [if_neg hkey] at hqp
      subst hqp
      exact hb q hq
  · intro p hp
    rw [hsh] at hp
    exact hb p (List.mem_of_mem_filter hp)

/-- The response/question bound also survives an `attachCV` addressed to a
session that has no recorded responses yet. -/
theorem boundAll_step_attach (svc : InterviewService) (sid : String)
    (cvText : Option String) (g : CvGenResult) (fn : String)
    (hresp : ∀ s, lookupSession svc sid = some s → s.responses = [])
    (hb : boundAll svc) :
    boundAll (step svc (.attachCV sid cvText g fn)) := by
  rcases step_sessions_shape svc (.attachCV sid cvText g fn) with hsh |
    ⟨sid₀, now, hop, hsh⟩ | ⟨sid₀, s₀, s₁, hl₀, hstep, hsh⟩ | ⟨keep, hsh⟩
  · intro p hp; rw [hsh] at hp; exact hb p hp
  · exact absurd hop (by simp)
  · intro p hp
    rw [hsh] at hp
    obtain ⟨q, hq, hqp⟩ := List.mem_map.mp hp
    obtain ⟨q₀, hq₀, hq₀s⟩ := lookup_mem svc sid₀ s₀ hl₀
    have hb₀ : s₀.responses.length ≤ s₀.questions.length := hq₀s ▸ hb q₀ hq₀
    by_cases hkey : q.1 = sid₀
    · rw [if_pos hkey] at hqp
      subst hqp
      show s₁.responses.length ≤ s₁.questions.length
      rcases hstep with ⟨hat, hre, _, _⟩ | ⟨hr, hlt, hs⟩ | ⟨hsub, hip, r, hs⟩ |
        ⟨hge, fr, hs⟩
      · have hsid : sid = sid₀ := hat
        have h0 : s₀.responses = [] := hresp s₀ (hsid ▸ hl₀)
        rw [hre, h0]
        exact Nat.zero_le _
      · subst hs; exact hb₀
      · exact absurd hsub (by simp [isSubmitTo])
      · subst hs; exact hb₀
    · rw [if_neg hkey] at hqp
      subst hqp
      exact hb q hq
  · intro p hp
    rw [hsh] at hp
    exact hb p (List.mem_of_mem_filter hp)

/-- A `submitResponse` addressed anywhere is a `submitResponse`. -/
theorem isSubmit_of_isSubmitTo (op : Op) (sid : String) (h : isSubmitTo op sid) :
    isSubmit op := by
  cases op <;> simp_all [isSubmitTo, isSubmit]

/-- Every status rank is at most the rank of `analyzed`. -/
theorem rank_le_analyzed (st : Status) : st.rank ≤ Status.rank .analyzed := by
  cases st <;> decide

/-- Under `okOp`, the target of an `attachCV` is still in `created`/`ready`. -/
theorem rank_le_one_of_okOp (svc : InterviewService) (op : Op) (sid : String) (s : Session)
    (hok : okOp svc op) (hat : isAttachTo op sid) (h : lookupSession svc sid = some s) :
    s.status.rank ≤ 1 := by
  cases op with
  | attachCV sid₀ cvText g fn =>
    have hsid : sid₀ = sid := hat
    subst hsid
    exact hok s h
  | createSession sid₀ now => exact hat.elim
  | getStatus sid₀ => exact hat.elim
  | nextQuestion sid₀ => exact hat.elim
  | submitResponse sid₀ qid audio tr text now => exact hat.elim
  | generateFeedback sid₀ per summ scan => exact hat.elim
  | getResult sid₀ now => exact hat.elim
  | expireSessions h₀ now => exact hat.elim

/-- C1, counterexample: in the four-operation run create → attachCV →
nextQuestion → attachCV on session `"s"`, the session is `in_progress` after
the third operation and back to `ready` after the fourth — a backward
transition, because `process_cv` sets the status to `ready` with no state
guard.  This refutes the claim that no operation ever moves the status
backward. -/
theorem C1_counterexample :
    (lookupSession traceStarted "s").map (fun s => s.status) = some .in_progress
    ∧ (lookupSession traceReAttached "s").map (fun s => s.status) = some .ready
    ∧ Status.rank .ready < Status.rank .in_progress := by
  exact ⟨by decide, by decide, by decide⟩

/-- C1 (amended): the claim fails as stated because `process_cv` has no state
guard (see `C1_counterexample`).  Amended: under every operation except an
`attachCV` on a session already past `ready`, the status rank never decreases
(`createSession` receives a fresh id, as `uuid4` guarantees), key uniqueness is
preserved, and `nextQuestion` on a `created` session fails with
`InvalidState`. -/
theorem C1_amended :
    (∀ (svc : InterviewService) (op : Op), keysNodup svc → okOp svc op →
      (∀ (sid : String) (s s' : Session), lookupSession svc sid = some s →
        lookupSession (step svc op) sid = some s' → s.status.rank ≤ s'.status.rank)
      ∧ keysNodup (step svc op))
    ∧ (∀ (svc : InterviewService) (sid : String) (s : Session),
        lookupSession svc sid = some s → s.status = .created →
        get_next_question svc sid = .error (.invalidState .created)) := by
  constructor
  · intro svc op hnd hok
    have hc : okCreate svc op := by cases op <;> first | exact hok | trivial
    refine ⟨?_, keysNodup_step svc op hnd hc⟩
    intro sid s s' h h'
    rcases step_lookup_cases svc op sid s s' hnd hc h h' with heq | hstep
    · rw [heq]
    · rcases hstep with ⟨hat, _, _, hstat⟩ | ⟨hr, _, hs⟩ | ⟨_, hip, r, hs⟩ | ⟨_, fr, hs⟩
      · rw [hstat]
        exact rank_le_one_of_okOp svc op sid s hok hat h
      · subst hs
        rw [hr]
        show Status.ready.rank ≤ Status.in_progress.rank
        decide
      · subst hs
        rw [hip]
        show Status.rank .in_progress
          ≤ (if s.questions.length ≤ s.current_index + 1 then Status.completed
             else s.status).rank
        split
        · decide
        · rw [hip]
      · subst hs
        exact rank_le_analyzed s.status
  · intro svc sid s h hcr
    simp [get_next_question, h, hcr]

/-- C1, witness: the amended theorem applied to the concrete attached session
(`ready`, rank 1) stepped by `nextQuestion` (to `in_progress`, rank 2), and to
`nextQuestion` on a freshly created session. -/
theorem C1_witness :
    Status.rank ((lookupSession traceAttached "s").getD defaultSession).status
      ≤ Status.rank
          ((lookupSession (step traceAttached (.nextQuestion "s")) "s").getD
            defaultSession).status
    ∧ get_next_question traceCreate "s" = .error (.invalidState .created) := by
  constructor
  · exact (C1_amended.1 traceAttached (.nextQuestion "s")
      (show (traceAttached.sessions.map Prod.fst).Nodup by decide) trivial).1 "s"
      ((lookupSession traceAttached "s").getD defaultSession)
      ((lookupSession (step traceAttached (.nextQuestion "s")) "s").getD defaultSession)
      (by decide) (by decide)
  · exact C1_amended.2 traceCreate "s" ((lookupSession traceCreate "s").getD defaultSession)
      (by decide) (by decide)

/-- A successful `process_response` writes back the found session with exactly
one record appended (via `submitUpdatedSession`) and persists it. -/
theorem process_response_ok_shape (svc : InterviewService) (sid qid : String) (audio : Bool)
    (tr : GenResult) (text : Option String) (now : ℚ) (svc' : InterviewService)
    (out : ResponseOut)
    (h2 : (process_response svc sid qid audio tr text now).2 = .ok (svc', out)) :
    ∃ s record, lookupSession svc sid = some s ∧
      svc' = save_session_metadata (writeBack svc sid (submitUpdatedSession s record)) sid := by
  cases hl : lookupSession svc sid with
  | none => simp [process_response, hl] at h2
  | some s =>
    by_cases hst : s.status = .in_progress
    · by_cases hq : qid = expectedQuestionId sid s.current_index
      · cases audio with
        | false =>
          cases hft : pyFalsy text with
          | true => simp [process_response, hl, hst, hq, hft] at h2
          | false =>
            refine ⟨s, submitRecord (text.getD "") none now, rfl, ?_⟩
            simp [process_response, hl, hst, hq, hft] at h2
            exact h2.1.symm
        | true =>
          cases hft : pyFalsy text with
          | false =>
            refine ⟨s, submitRecord (text.getD "")
              (some (sid ++ "/response_" ++ toString s.current_index ++ ".wav")) now, rfl, ?_⟩
            simp [process_response, hl, hst, hq, hft] at h2
            exact h2.1.symm
          | true =>
            cases tr with
            | error e => simp [process_response, hl, hst, hq, hft] at h2
            | ok tr2 =>
              cases hft2 : pyFalsy (some tr2) with
              | true => simp [process_response, hl, hst, hq, hft, hft2] at h2
              | false =>
                refine ⟨s, submitRecord ((some tr2).getD "")
                  (some (sid ++ "/response_" ++ toString s.current_index ++ ".wav")) now,
                  rfl, ?_⟩
                simp [process_response, hl, hst, hq, hft, hft2] at h2
                exact h2.1.symm
      · simp [process_response, hl, hst, hq] at h2
    · simp [process_response, hl, hst] at h2

/-- C2, counterexample: after create → attachCV (2 CV + 3 standard questions)
→ nextQuestion → five accepted submissions, re-attaching the CV with a blank
collaborator reply shrinks the question list to the 3 standard questions while
the 5 responses remain, so `len(responses) ≤ len(questions)` fails after that
operation.  This refutes the claim that the bound holds after every
operation. -/
theorem C2_counterexample :
    (lookupSession traceShrunk "s").map (fun t => (t.responses.length, t.questions.length))
      = some (5, 3)
    ∧ ¬ (5 ≤ 3) := ⟨by decide, by decide⟩

/-- C2 (amended): `len(responses) == currentIndex` (together with the
`in_progress` cursor bound) is preserved by every operation, and each accepted
submission appends exactly one response and advances the cursor by exactly one
while no other operation changes either quantity; but
`len(responses) ≤ len(questions)` is only preserved by operations other than
`attachCV` — an `attachCV` preserves it only when the session has no recorded
responses (as in the intended `created`/`ready` states), because it replaces
the question list (see `C2_counterexample`). -/
theorem C2_amended :
    (∀ (svc : InterviewService) (op : Op), invAll svc → invAll (step svc op))
    ∧ (∀ (svc : InterviewService) (op : Op), ¬ isAttach op → invAll svc → boundAll svc →
        boundAll (step svc op))
    ∧ (∀ (svc : InterviewService) (sid : String) (cvText : Option String)
        (g : CvGenResult) (fn : String),
        (∀ s, lookupSession svc sid = some s → s.responses = []) → boundAll svc →
        boundAll (step svc (.attachCV sid cvText g fn)))
    ∧ (∀ (svc : InterviewService) (sid qid : String) (audio : Bool) (tr : GenResult)
        (text : Option String) (now : ℚ) (s : Session) (svc' : InterviewService)
        (out : ResponseOut),
        lookupSession svc sid = some s →
        (process_response svc sid qid audio tr text now).2 = .ok (svc', out) →
        (lookupSession svc' sid).map (fun t => (t.responses.length, t.current_index))
          = some (s.responses.length + 1, s.current_index + 1))
    ∧ (∀ (svc : InterviewService) (op : Op) (sid : String) (s s' : Session),
        keysNodup svc → okCreate svc op → ¬ isSubmit op →
        lookupSession svc sid = some s → lookupSession (step svc op) sid = some s' →
        s'.responses = s.responses ∧ s'.current_index = s.current_index) := by
  refine ⟨invAll_step, boundAll_step_of_not_attach, boundAll_step_attach, ?_, ?_⟩
  · intro svc sid qid audio tr text now s svc' out h h2
    obtain ⟨s₀, record, hl₀, hsvc'⟩ :=
      process_response_ok_shape svc sid qid audio tr text now svc' out h2
    have hs₀ : s₀ = s := by rw [h] at hl₀; exact (Option.some_inj.mp hl₀).symm
    subst hs₀
    subst hsvc'
    rw [lookup_save, lookup_writeBack_self svc sid s₀ _ hl₀]
    simp [submitUpdatedSession]
  · intro svc op sid s s' hnd hc hns h h'
    rcases step_lookup_cases svc op sid s s' hnd hc h h' with heq | hstep
    · rw [heq]; exact ⟨rfl, rfl⟩
    · rcases hstep with ⟨_, hresp, hidx, _⟩ | ⟨_, _, hs⟩ | ⟨hsub, _, r, _⟩ | ⟨_, fr, hs⟩
      · exact ⟨hresp, hidx⟩
      · subst hs; exact ⟨rfl, rfl⟩
      · exact absurd (isSubmit_of_isSubmitTo op sid hsub) hns
      · subst hs; exact ⟨rfl, rfl⟩

/-- C2, witness: the append-one conjunct of the amended theorem applied to the
concrete first submission on the started session: one response appended, the
cursor advanced from 0 to 1. -/
theorem C2_witness :
    (lookupSession (submitRunW.2.toOption.getD defaultOkSubmit).1 "s").map
        (fun t => (t.responses.length, t.current_index))
      = some (((lookupSession traceStarted "s").getD defaultSession).responses.length + 1,
              ((lookupSession traceStarted "s").getD defaultSession).current_index + 1) :=
  C2_amended.2.2.2.1 traceStarted "s" "s_0" false (.error ()) (some "tell me more") 7
    ((lookupSession traceStarted "s").getD defaultSession)
    (submitRunW.2.toOption.getD defaultOkSubmit).1
    (submitRunW.2.toOption.getD defaultOkSubmit).2
    (by decide) rfl

/-- C3 (amended): after a successful lookup, `generate_feedback` fails with
`Incomplete` exactly when `len(responses) < len(questions)` (the source checks
`<`, not `≠`), and succeeds — marking the session `analyzed` — whenever
`len(questions) ≤ len(responses)`, including on a session with zero questions
(see `C3_counterexample`). -/
theorem C3_amended (svc : InterviewService) (sid : String) (s : Session)
    (perCall : Nat → GenResult) (summaryCall : GenResult) (scoreScan : String → Option ℚ)
    (h : lookupSession svc sid = some s) :
    (s.responses.length < s.questions.length →
      generate_feedback svc sid perCall summaryCall scoreScan
        = .error (.incomplete s.responses.length s.questions.length))
    ∧ (s.questions.length ≤ s.responses.length →
        (generate_feedback svc sid perCall summaryCall scoreScan).isOk = true
        ∧ (lookupSession (step svc (.generateFeedback sid perCall summaryCall scoreScan))
            sid).map (fun t => t.status) = some .analyzed) := by
  constructor
  · intro hlt
    simp [generate_feedback, h, hlt]
  · intro hge
    have hnlt : ¬ s.responses.length < s.questions.length := by omega
    constructor
    · simp [generate_feedback, h, hnlt, Except.isOk, Except.toBool]
    · have hstep : step svc (.generateFeedback sid perCall summaryCall scoreScan)
          = save_session_metadata (writeBack svc sid (feedbackUpdatedSession s
              (analyze_responses (s.responses.map (fun r => r.text))
                (s.questions.map (fun q => q.expected_response))
                (s.questions.map (fun q => q.text)) perCall summaryCall scoreScan))) sid := by
        simp [step, generate_feedback, h, hnlt]
      rw [hstep, lookup_save, lookup_writeBack_self svc sid s _ h]
      simp [feedbackUpdatedSession]

/-- C3, counterexample: on a freshly created session — zero questions, zero
responses — `generate_feedback` succeeds (the guard `len(responses) <
len(questions)` does not fire), refuting the claim that feedback generation
never succeeds on a session with zero questions. -/
theorem C3_counterexample :
    (lookupSession (create_session initService "t" 0) "t").map (fun s => s.questions.length)
      = some 0
    ∧ (generate_feedback (create_session initService "t" 0) "t" (fun i => .ok "fine")
        (.ok "summary") (fun x => none)).isOk = true := ⟨by decide, by decide⟩

/-- C3, witness: the amended theorem applied to the concrete attached session
(5 questions, 0 responses): feedback generation fails with `Incomplete`. -/
theorem C3_witness :
    generate_feedback traceAttached "s" (fun i => .ok "fine") (.ok "summary")
      (fun x => none) = .error (.incomplete 0 5) :=
  (C3_amended traceAttached "s" ((lookupSession traceAttached "s").getD defaultSession)
    (fun i => .ok "fine") (.ok "summary") (fun x => none) (by decide)).1 (by decide)

/-- C4 (confirmed): on an `in_progress` session, `process_response` with any
question id other than the one derived from `(sessionId, currentIndex)` fails
with `QuestionMismatch`, invokes no transcription, and the service state after
the operation is exactly the state before it. -/
theorem C4_mismatch_unchanged (svc : InterviewService) (sid : String) (s : Session)
    (qid : String) (audio : Bool) (tr : GenResult) (text : Option String) (now : ℚ)
    (h : lookupSession svc sid = some s) (hst : s.status = .in_progress)
    (hq : qid ≠ expectedQuestionId sid s.current_index) :
    process_response svc sid qid audio tr text now = (false, .error .questionMismatch)
    ∧ step svc (.submitResponse sid qid audio tr text now) = svc := by
  constructor
  · simp [process_response, h, hst, hq]
  · simp [step, process_response, h, hst, hq]

/-- C4, witness: the mismatch theorem applied to the started concrete session
with the stale question id `"nope"`. -/
theorem C4_witness :
    process_response traceStarted "s" "nope" false (.error ()) (some "hi") 3
      = (false, .error .questionMismatch) :=
  (C4_mismatch_unchanged traceStarted "s"
    ((lookupSession traceStarted "s").getD defaultSession) "nope" false (.error ())
    (some "hi") 3 (by decide) (by decide) (by decide)).1

/-- C5 (confirmed): on a session in `ready` or `in_progress` whose cursor is
still inside the question list, `get_next_question` returns the question at the
cursor, and an immediately repeated call returns the same question with no
further state change; moreover `get_next_question` never changes any session's
`current_index` — only a successful submission advances the cursor. -/
theorem C5_next_question_idempotent :
    (∀ (svc : InterviewService) (sid : String) (s : Session),
      lookupSession svc sid = some s → (s.status = .ready ∨ s.status = .in_progress) →
      s.current_index < s.questions.length →
      ∃ svc' q, get_next_question svc sid = .ok (svc', some q)
        ∧ get_next_question svc' sid = .ok (svc', some q)
        ∧ q.question_id = expectedQuestionId sid s.current_index)
    ∧ (∀ (svc : InterviewService) (sid sid' : String),
        (lookupSession (step svc (.nextQuestion sid)) sid').map (fun t => t.current_index)
          = (lookupSession svc sid').map (fun t => t.current_index)) := by
  constructor
  · intro svc sid s h hst hidx
    have hnle : ¬ s.questions.length ≤ s.current_index := by omega
    rcases hst with hr | hip
    · refine ⟨save_session_metadata (writeBack svc sid { s with status := .in_progress }) sid,
        { question_id := expectedQuestionId sid s.current_index,
          text := (s.questions.getD s.current_index defaultQuestionRec).text,
          type := (s.questions.getD s.current_index defaultQuestionRec).type,
          expected_response :=
            (s.questions.getD s.current_index defaultQuestionRec).expected_response },
        ?_, ?_, rfl⟩
      · simp [get_next_question, h, hr, hnle]
      · have h1 : lookupSession
            (save_session_metadata (writeBack svc sid { s with status := .in_progress })
              sid) sid
            = some { s with status := .in_progress } := by
          rw [lookup_save]; exact lookup_writeBack_self svc sid s _ h
        simp [get_next_question, h1, hnle]
    · refine ⟨svc,
        { question_id := expectedQuestionId sid s.current_index,
          text := (s.questions.getD s.current_index defaultQuestionRec).text,
          type := (s.questions.getD s.current_index defaultQuestionRec).type,
          expected_response :=
            (s.questions.getD s.current_index defaultQuestionRec).expected_response },
        ?_, ?_, rfl⟩
      · simp [get_next_question, h, hip, hnle]
      · simp [get_next_question, h, hip, hnle]
  · intro svc sid sid'
    cases hl : lookupSession svc sid with
    | none => simp [step, get_next_question, hl]
    | some s =>
      by_cases hr : s.status = .ready
      · by_cases hidx : s.questions.length ≤ s.current_index
        · simp [step, get_next_question, hl, hr, hidx]
        · have hstep : step svc (.nextQuestion sid)
              = save_session_metadata (writeBack svc sid { s with status := .in_progress })
                  sid := by
            simp [step, get_next_question, hl, hr, hidx]
          rw [hstep, lookup_save, lookup_writeBack]
          by_cases hss : sid' = sid
          · subst hss; rw [hl]; simp
          · cases lookupSession svc sid' <;> simp [hss]
      · by_cases hip : s.status = .in_progress
        · by_cases hidx : s.questions.length ≤ s.current_index <;>
            simp [step, get_next_question, hl, hr, hip, hidx]
        · simp [step, get_next_question, hl, hr, hip]

/-- C5, witness: on the concrete attached session, fetching the next question
twice in a row yields the same result as fetching it once (same service state,
same question). -/
theorem C5_witness :
    get_next_question ((get_next_question traceAttached "s").toOption.getD
        (initService, none)).1 "s"
      = get_next_question traceAttached "s" := by
  obtain ⟨svc', q, h1, h2, h3⟩ := C5_next_question_idempotent.1 traceAttached "s"
    ((lookupSession traceAttached "s").getD defaultSession) (by decide)
    (Or.inl (by decide)) (by decide)
  rw [h1]
  simpa [Except.toOption] using h2

/-- The fixed word lists are disjoint. -/
theorem positive_negative_disjoint : ∀ w ∈ positive_words, w ∉ negative_words := by decide

/-- C6 (confirmed): the lexical sentiment scorer is a pure total function with
`score = (pos - neg) / (pos + neg)` when `pos + neg > 0` and `0` otherwise, and
`magnitude = (pos + neg) / tokenCount` with `0` when nothing matches (hence for
empty text); all-positive token lists score `1`, all-negative score `-1`,
no-match texts yield `{0, 0}`, and always `-1 ≤ score ≤ 1` and
`0 ≤ magnitude`. -/
theorem C6_sentiment (text : String) :
    ((analyze_sentiment text).score =
      if 0 < positiveCount text + negativeCount text then
        ((positiveCount text : ℚ) - (negativeCount text : ℚ))
          / ((positiveCount text : ℚ) + (negativeCount text : ℚ))
      else 0)
    ∧ ((analyze_sentiment text).magnitude =
      if 0 < positiveCount text + negativeCount text then
        ((positiveCount text : ℚ) + (negativeCount text : ℚ))
          / ((pyTokens text).length : ℚ)
      else 0)
    ∧ (pyTokensLower text ≠ [] →
        (∀ w ∈ pyTokensLower text, w ∈ positive_words) →
        (analyze_sentiment text).score = 1)
    ∧ (pyTokensLower text ≠ [] →
        (∀ w ∈ pyTokensLower text, w ∈ negative_words) →
        (analyze_sentiment text).score = -1)
    ∧ ((∀ w ∈ pyTokensLower text, w ∉ positive_words ∧ w ∉ negative_words) →
        analyze_sentiment text = ⟨0, 0⟩)
    ∧ (-1 ≤ (analyze_sentiment text).score ∧ (analyze_sentiment text).score ≤ 1
        ∧ 0 ≤ (analyze_sentiment text).magnitude) := by
  have hsplit : ∀ h0 : ¬ (negativeCount text + positiveCount text = 0),
      analyze_sentiment text =
        ⟨((positiveCount text : ℚ) - (negativeCount text : ℚ))
            / ((negativeCount text + positiveCount text : ℕ) : ℚ),
         ((negativeCount text + positiveCount text : ℕ) : ℚ)
            / ((pyTokens text).length : ℚ)⟩ := by
    intro h0
    simp [analyze_sentiment, h0]
  have hzero : ∀ _ : negativeCount text + positiveCount text = 0,
      analyze_sentiment text = ⟨0, 0⟩ := by
    intro h0
    simp [analyze_sentiment, h0]
  refine ⟨?_, ?_, ?_, ?_, ?_, ?_⟩
  · by_cases h0 : negativeCount text + positiveCount text = 0
    · rw [if_neg (by omega), hzero h0]
    · rw [if_pos (by omega), hsplit h0]
      push_cast
      ring_nf
  · by_cases h0 : negativeCount text + positiveCount text = 0
    · rw [if_neg (by omega), hzero h0]
    · rw [if_pos (by omega), hsplit h0]
      push_cast
      ring_nf
  · intro hne hall
    have hPlen : positiveCount text = (pyTokensLower text).length := by
      unfold positiveCount
      rw [List.countP_eq_length]
      intro a ha
      simpa using hall a ha
    have hN0 : negativeCount text = 0 := by
      unfold negativeCount
      rw [List.countP_eq_zero]
      intro a ha
      simpa using positive_negative_disjoint a (hall a ha)
    have hlen : 0 < (pyTokensLower text).length := List.length_pos.mpr hne
    have h0 : ¬ (negativeCount text + positiveCount text = 0) := by omega
    rw [hsplit h0]
    have hPne : ((positiveCount text : ℚ)) ≠ 0 := by
      rw [hPlen]
      exact Nat.cast_ne_zero.mpr (by omega)
    simp only [hN0, Nat.zero_add, Nat.cast_zero, sub_zero]
    exact div_self hPne
  · intro hne hall
    have hNlen : negativeCount text = (pyTokensLower text).length := by
      unfold negativeCount
      rw [List.countP_eq_length]
      intro a ha
      simpa using hall a ha
    have hP0 : positiveCount text = 0 := by
      unfold positiveCount
      rw [List.countP_eq_zero]
      intro a ha
      intro habs
      exact positive_negative_disjoint a (by simpa using habs) (hall a ha)
    have hlen : 0 < (pyTokensLower text).length := List.length_pos.mpr hne
    have h0 : ¬ (negativeCount text + positiveCount text = 0) := by omega
    rw [hsplit h0]
    have hNne : ((negativeCount text : ℚ)) ≠ 0 := by
      rw [hNlen]
      exact Nat.cast_ne_zero.mpr (by omega)
    simp only [hP0, Nat.add_zero, Nat.cast_zero, zero_sub]
    rw [neg_div, div_self hNne]
  · intro hall
    have hP0 : positiveCount text = 0 := by
      unfold positiveCount
      rw [List.countP_eq_zero]
      intro a ha
      simpa using (hall a ha).1
    have hN0 : negativeCount text = 0 := by
      unfold negativeCount
      rw [List.countP_eq_zero]
      intro a ha
      simpa using (hall a ha).2
    exact hzero (by omega)
  · by_cases h0 : negativeCount text + positiveCount text = 0
    · rw [hzero h0]
      norm_num
    · rw [hsplit h0]
      have hPN : (0:ℚ) < ((negativeCount text + positiveCount text : ℕ) : ℚ) := by
        exact_mod_cast Nat.pos_of_ne_zero h0
      have hPnn : (0:ℚ) ≤ (positiveCount text : ℚ) := Nat.cast_nonneg _
      have hNnn : (0:ℚ) ≤ (negativeCount text : ℚ) := Nat.cast_nonneg _
      refine ⟨?_, ?_, ?_⟩
      · rw [le_div_iff hPN]
        push_cast
        linarith
      · rw [div_le_one hPN]
        push_cast
        linarith
      · exact div_nonneg (by positivity) (Nat.cast_nonneg _)

/-- C6, witness: the sentiment theorem applied to concrete texts — an
all-positive text scores `1`, an all-negative text scores `-1`, and a text with
no matching words yields `{0, 0}`. -/
theorem C6_witness :
    (analyze_sentiment "great success").score = 1
    ∧ (analyze_sentiment "bad problem").score = -1
    ∧ analyze_sentiment "hello there world" = ⟨0, 0⟩ := by
  refine ⟨?_, ?_, ?_⟩
  · exact (C6_sentiment "great success").2.2.1 (by decide) (by decide)
  · exact (C6_sentiment "bad problem").2.2.2.1 (by decide) (by decide)
  · exact (C6_sentiment "hello there world").2.2.2.2.1 (by decide)

/-- C7 (amended): the CV question generator always returns at most 2 questions
and never propagates a collaborator failure (it is a total function of the
call outcome); it returns the fixed 2-question fallback on a raised exception
and on a reply with no text attribute — but a reply whose text attribute is
present and blank yields the empty list, not the fallback (see
`C7_counterexample`). -/
theorem C7_cv_questions :
    (∀ call : CvGenResult, (generate_cv_questions call).length ≤ 2)
    ∧ (∀ e : Unit, generate_cv_questions (.error e) = fallbackCvQuestions)
    ∧ generate_cv_questions (.ok none) = fallbackCvQuestions := by
  refine ⟨?_, fun e => rfl, rfl⟩
  intro call
  match call with
  | .error e =>
    show fallbackCvQuestions.length ≤ 2
    decide
  | .ok none =>
    show fallbackCvQuestions.length ≤ 2
    decide
  | .ok (some t) =>
    show (List.take 2 _).length ≤ 2
    rw [List.length_take]
    exact Nat.min_le_left 2 _

/-- C7, counterexample: a collaborator reply carrying a present-but-blank text
attribute makes the generator return the empty list — not the fixed
2-question fallback — refuting the claim that every malformed or empty reply
yields the fallback set. -/
theorem C7_counterexample :
    generate_cv_questions (.ok (some "")) = [] ∧ fallbackCvQuestions ≠ [] :=
  ⟨by decide, by decide⟩

/-- `getD` over a zip of two sufficiently long lists. -/
theorem getD_zip {α β : Type} (l : List α) (l' : List β) (i : Nat) (d : α) (d' : β)
    (h : i < l.length) (h' : i < l'.length) :
    (l.zip l').getD i (d, d') = (l.getD i d, l'.getD i d') := by
  induction l generalizing l' i with
  | nil => simp at h
  | cons a t ih =>
    cases l' with
    | nil => simp at h'
    | cons b t' =>
      cases i with
      | zero => simp
      | succ n =>
        simp only [List.zip_cons_cons, List.getD_cons_succ]
        exact ih t' n (by simpa using h) (by simpa using h')

/-- `getD` over a mapped enumeration starting at `k`. -/
theorem getD_enumFrom_map {α β : Type} (f : Nat × α → β) (d : β) (dα : α) :
    ∀ (l : List α) (k i : Nat), i < l.length →
      ((l.enumFrom k).map f).getD i d = f (k + i, l.getD i dα) := by
  intro l
  induction l with
  | nil => intro k i h; simp at h
  | cons a t ih =>
    intro k i h
    cases i with
    | zero => simp [List.enumFrom]
    | succ n =>
      simp only [List.enumFrom, List.map_cons, List.getD_cons_succ]
      rw [ih (k + 1) n (by simpa using h)]
      have hk : k + 1 + n = k + (n + 1) := by omega
      rw [hk]

/-- C8 (confirmed): for equal-length question/expected/actual sequences of
length `N`, the feedback aggregator produces a detailed-feedback dictionary
with exactly `N` entries keyed `question_1 … question_N` in index order, where
the entry at index `i` holds the fixed placeholder when the `i`-th collaborator
call raised and the collaborator reply itself otherwise — one failure never
affects the other indices. -/
theorem C8_feedback_alignment (questions expected actual : List String) (N : Nat)
    (h1 : questions.length = N) (h2 : expected.length = N) (h3 : actual.length = N)
    (perCall : Nat → GenResult) (summaryCall : GenResult)
    (scoreScan : String → Option ℚ) :
    (analyze_responses actual expected questions perCall summaryCall
        scoreScan).detailed_feedback.length = N
    ∧ ∀ i, i < N →
        (analyze_responses actual expected questions perCall summaryCall
            scoreScan).detailed_feedback.getD i ("", "")
          = ("question_" ++ toString (i + 1),
             match perCall i with
             | .ok t => t
             | .error _ => analysisErrorText) := by
  have hdf : (analyze_responses actual expected questions perCall summaryCall
      scoreScan).detailed_feedback
      = List.map (fun p : Nat × String => ("question_" ++ toString (p.1 + 1), p.2))
          (List.enumFrom 0
            (List.map
              (fun p : Nat × (String × (String × String)) =>
                analyze_single_response p.2.1 p.2.2.1 p.2.2.2 (perCall p.1))
              (List.enumFrom 0 (questions.zip (actual.zip expected))))) := by
    cases summaryCall <;> rfl
  have hzlen : (questions.zip (actual.zip expected)).length = N := by
    rw [List.length_zip, List.length_zip, h1, h2, h3]
    omega
  have hindlen : (List.map
      (fun p : Nat × (String × (String × String)) =>
        analyze_single_response p.2.1 p.2.2.1 p.2.2.2 (perCall p.1))
      (List.enumFrom 0 (questions.zip (actual.zip expected)))).length = N := by
    rw [List.length_map, List.enumFrom_length, hzlen]
  constructor
  · rw [hdf, List.length_map, List.enumFrom_length, hindlen]
  · intro i hi
    rw [hdf]
    rw [getD_enumFrom_map _ ("", "") "" _ 0 i (by rw [hindlen]; exact hi)]
    rw [getD_enumFrom_map _ "" ("", ("", "")) _ 0 i (by rw [hzlen]; exact hi)]
    rw [getD_zip questions (actual.zip expected) i "" ("", "")
      (by omega) (by rw [List.length_zip]; omega)]
    rw [getD_zip actual expected i "" "" (by omega) (by omega)]
    simp only [Nat.zero_add]
    cases hc : perCall i <;> simp [analyze_single_response, hc]

/-- C8, witness: the alignment theorem at a concrete batch of five, where only
the third collaborator call raises: five entries, the placeholder exactly at
index 2. -/
theorem C8_witness :
    (analyze_responses ["a0", "a1", "a2", "a3", "a4"] ["e0", "e1", "e2", "e3", "e4"]
        ["q0", "q1", "q2", "q3", "q4"]
        (fun i => if i = 2 then .error () else .ok ("fb" ++ toString i)) (.ok "sum")
        (fun x => none)).detailed_feedback.length = 5
    ∧ (analyze_responses ["a0", "a1", "a2", "a3", "a4"] ["e0", "e1", "e2", "e3", "e4"]
        ["q0", "q1", "q2", "q3", "q4"]
        (fun i => if i = 2 then .error () else .ok ("fb" ++ toString i)) (.ok "sum")
        (fun x => none)).detailed_feedback.getD 2 ("", "")
      = ("question_3", analysisErrorText)
    ∧ (analyze_responses ["a0", "a1", "a2", "a3", "a4"] ["e0", "e1", "e2", "e3", "e4"]
        ["q0", "q1", "q2", "q3", "q4"]
        (fun i => if i = 2 then .error () else .ok ("fb" ++ toString i)) (.ok "sum")
        (fun x => none)).detailed_feedback.getD 1 ("", "")
      = ("question_2", "fb1") := by
  have h := C8_feedback_alignment ["q0", "q1", "q2", "q3", "q4"]
    ["e0", "e1", "e2", "e3", "e4"] ["a0", "a1", "a2", "a3", "a4"] 5 rfl rfl rfl
    (fun i => if i = 2 then .error () else .ok ("fb" ++ toString i)) (.ok "sum")
    (fun x => none)
  exact ⟨h.1, h.2 2 (by decide), h.2 1 (by decide)⟩

/-- A filter and its complement partition the length of a list. -/
theorem length_filter_add_compl {α : Type} (l : List α) (f : α → Bool) :
    (l.filter f).length + (l.filter (fun a => !f a)).length = l.length := by
  induction l with
  | nil => rfl
  | cons a t ih =>
    cases hf : f a <;> simp [List.filter_cons, hf] <;> omega

/-- C9 (confirmed): `cleanup_old_sessions` removes from active memory exactly
the sessions with `now - createdAt > maxAgeHours * 3600`, leaves every younger
session (and the standard questions) unchanged, returns exactly the number
removed, never fails (it is a total function), and does not touch the durable
on-disk copies. -/
theorem C9_expire (svc : InterviewService) (now max_age_hours : ℚ) :
    (∀ p : String × Session,
        p ∈ (cleanup_old_sessions svc now max_age_hours).1.sessions
          ↔ p ∈ svc.sessions ∧ ¬ (max_age_hours * 3600 < now - p.2.created_at))
    ∧ (cleanup_old_sessions svc now max_age_hours).2
        + (cleanup_old_sessions svc now max_age_hours).1.sessions.length
        = svc.sessions.length
    ∧ (cleanup_old_sessions svc now max_age_hours).2
        = (svc.sessions.filter
            (fun p => decide (max_age_hours * 3600 < now - p.2.created_at))).length
    ∧ (cleanup_old_sessions svc now max_age_hours).1.disk = svc.disk
    ∧ (cleanup_old_sessions svc now max_age_hours).1.standard_questions
        = svc.standard_questions := by
  refine ⟨?_, ?_, rfl, rfl, rfl⟩
  · intro p
    constructor
    · intro hp
      have := List.mem_filter.mp hp
      refine ⟨this.1, ?_⟩
      simpa using this.2
    · intro ⟨hmem, hage⟩
      exact List.mem_filter.mpr ⟨hmem, by simpa using hage⟩
  · exact length_filter_add_compl svc.sessions
      (fun p => decide (max_age_hours * 3600 < now - p.2.created_at))

/-- C10 (confirmed): when non-empty text is supplied to `process_response` the
transcription collaborator is never invoked — even when an audio file is also
attached — and on success the returned and stored response text equal the
supplied text; conversely transcription is invoked only when audio is present
and the supplied text is absent or empty (Python-falsy). -/
theorem C10_text_priority :
    (∀ (svc : InterviewService) (sid qid : String) (audio : Bool) (tr : GenResult)
        (txt : String) (now : ℚ), txt ≠ "" →
      (process_response svc sid qid audio tr (some txt) now).1 = false
      ∧ ∀ (svc' : InterviewService) (out : ResponseOut),
          (process_response svc sid qid audio tr (some txt) now).2 = .ok (svc', out) →
          out.text = txt
          ∧ (lookupSession svc' sid).map
              (fun t => t.responses.getLast?.map (fun r => r.text)) = some (some txt))
    ∧ (∀ (svc : InterviewService) (sid qid : String) (audio : Bool) (tr : GenResult)
        (text : Option String) (now : ℚ),
        (process_response svc sid qid audio tr text now).1 = true →
        audio = true ∧ pyFalsy text = true) := by
  constructor
  · intro svc sid qid audio tr txt now htxt
    have hft : pyFalsy (some txt) = false := by simp [pyFalsy, htxt]
    cases hl : lookupSession svc sid with
    | none =>
      refine ⟨by simp [process_response, hl], ?_⟩
      intro svc' out h2
      simp [process_response, hl] at h2
    | some s =>
      by_cases hst : s.status = .in_progress
      · by_cases hq : qid = expectedQuestionId sid s.current_index
        · cases audio with
          | false =>
            refine ⟨by simp [process_response, hl, hst, hq, hft], ?_⟩
            intro svc' out h2
            simp only [process_response, hl, hst, hq, hft] at h2
            simp [hft] at h2
            obtain ⟨hsvc', hout⟩ := h2
            refine ⟨by rw [← hout], ?_⟩
            rw [← hsvc', lookup_save, lookup_writeBack_self svc sid s _ hl]
            simp [submitUpdatedSession, submitRecord, List.getLast?_concat]
          | true =>
            refine ⟨by simp [process_response, hl, hst, hq, hft], ?_⟩
            intro svc' out h2
            simp only [process_response, hl, hst, hq, hft] at h2
            simp [hft] at h2
            obtain ⟨hsvc', hout⟩ := h2
            refine ⟨by rw [← hout], ?_⟩
            rw [← hsvc', lookup_save, lookup_writeBack_self svc sid s _ hl]
            simp [submitUpdatedSession, submitRecord, List.getLast?_concat]
        · refine ⟨by simp [process_response, hl, hst, hq], ?_⟩
          intro svc' out h2
          simp [process_response, hl, hst, hq] at h2
      · refine ⟨by simp [process_response, hl, hst], ?_⟩
        intro svc' out h2
        simp [process_response, hl, hst] at h2
  · intro svc sid qid audio tr text now h1
    cases hl : lookupSession svc sid with
    | none => simp [process_response, hl] at h1
    | some s =>
      by_cases hst : s.status = .in_progress
      · by_cases hq : qid = expectedQuestionId sid s.current_index
        · cases audio with
          | false =>
            cases hft : pyFalsy text with
            | true => simp [process_response, hl, hst, hq, hft] at h1
            | false => simp [process_response, hl, hst, hq, hft] at h1
          | true =>
            cases hft : pyFalsy text with
            | false => simp [process_response, hl, hst, hq, hft] at h1
            | true => exact ⟨rfl, rfl⟩

        · simp [process_response, hl, hst, hq] at h1
      · simp [process_response, hl, hst] at h1

/-- C10, witness: supplying non-empty text together with an audio file on the
concrete started session invokes no transcription and stores the supplied
text. -/
theorem C10_witness :
    (process_response traceStarted "s" "s_0" true (.error ()) (some "tell me more") 7).1
      = false
    ∧ ((process_response traceStarted "s" "s_0" true (.error ())
          (some "tell me more") 7).2.toOption.getD defaultOkSubmit).2.text
        = "tell me more" := by
  have h := C10_text_priority.1 traceStarted "s" "s_0" true (.error ()) "tell me more" 7
    (by decide)
  refine ⟨h.1, ?_⟩
  exact (h.2 ((process_response traceStarted "s" "s_0" true (.error ())
      (some "tell me more") 7).2.toOption.getD defaultOkSubmit).1
    ((process_response traceStarted "s" "s_0" true (.error ())
      (some "tell me more") 7).2.toOption.getD defaultOkSubmit).2 rfl).1
